import Mathlib

/-!
Verification of `src/Gene_extractor.py` (class `GeneReviewsExtractor` and the
`main` batch driver).

The embedding models:
  * Python dictionaries as association lists (`lookupA` is `dict.get`,
    first match wins; insertion appends a fresh key at the end, which matches
    CPython's insertion-order semantics);
  * the parsed HTML document as the ordered list of sibling block nodes the
    section extractor walks over, each node carrying its tag name and its
    `get_text(strip=True, separator=' ')` visible text;
  * the cache directory as a boolean flag (`cache_dir` configured or not)
    plus a key-to-file-content map, where a file either holds a valid
    JSON-serialized record or corrupt text that `json.load` rejects;
  * the network as explicit oracles (`requests.Session.get` outcomes), so
    the fetch functions additionally return the list of network requests
    they performed.
-/

set_option autoImplicit false

namespace GeneExtractor

/-- A Python `Dict[str, str]`-shaped JSON record, as an association list. -/
abbrev Dict := List (String × String)

/-- First-match association-list lookup: Python `d.get(key)` / `d[key]`. -/
def lookupA {β : Type} : List (String × β) → String → Option β
  | [], _ => none
  | (k, v) :: rest, key => if k = key then some v else lookupA rest key

/-- Python truthiness of a `Dict`: an empty dict is falsy. -/
def pyDictTruthy (d : Dict) : Bool := !d.isEmpty

/-- Python truthiness of an `Optional[Dict]`: `None` and `{}` are falsy. -/
def pyOptTruthy : Option Dict → Bool
  | none => false
  | some d => pyDictTruthy d

/-- Python `str.lower()` (ASCII case mapping), computed structurally on the
character list so that concrete instances evaluate. -/
def pyLower (s : String) : String := String.mk (s.toList.map Char.toLower)

/-- Python `str.upper()` (ASCII case mapping). -/
def pyUpper (s : String) : String := String.mk (s.toList.map Char.toUpper)

/-- Python `str.strip()`: remove leading and trailing whitespace. -/
def pyStrip (s : String) : String :=
  String.mk (((s.toList.dropWhile Char.isWhitespace).reverse.dropWhile
    Char.isWhitespace).reverse)

/-- Helper of `pySplit`: accumulator-based single-character split. -/
def splitOnCharAux (sep : Char) : List Char → List Char → List (List Char)
  | [], acc => [acc.reverse]
  | c :: rest, acc =>
    if c = sep then acc.reverse :: splitOnCharAux sep rest []
    else splitOnCharAux sep rest (c :: acc)

/-- Python `str.split(sep)` for a one-character separator (the program only
splits on a newline, a tab, and a semicolon). -/
def pySplit (sep : Char) (s : String) : List String :=
  (splitOnCharAux sep s.toList []).map String.mk

/-- Whether the first list is an initial segment of the second. -/
def beginsWith : List Char → List Char → Bool
  | [], _ => true
  | _ :: _, [] => false
  | a :: as, b :: bs => (a = b) && beginsWith as bs

/-- Python's `needle in hay` on character sequences: `needle` occurs
contiguously somewhere in `hay`. -/
def containsSeq (needle : List Char) : List Char → Bool
  | [] => needle.isEmpty
  | c :: rest => beginsWith needle (c :: rest) || containsSeq needle rest

/-- The characters before the first occurrence of `sep` (the whole list when
`sep` never occurs). -/
def takeUntilSeq (sep : List Char) : List Char → List Char
  | [] => []
  | c :: rest =>
    if beginsWith sep (c :: rest) then [] else c :: takeUntilSeq sep rest

/-- Python `s.split(sep)[0]` for a nonempty separator: the text before the
first occurrence of `sep`, or all of `s` if `sep` does not occur. -/
def pySplitFirst (sep s : String) : String :=
  String.mk (takeUntilSeq sep.toList s.toList)

/-- One block-level node of the parsed HTML document: its tag name and the
visible text `get_text(strip=True, separator=' ')` would produce. -/
structure Node where
  tag : String
  text : String
deriving DecidableEq, Repr

/-- `tag.name in ['h2', 'h3', 'h4']`. -/
def isHeading (n : Node) : Bool :=
  n.tag = "h2" || n.tag = "h3" || n.tag = "h4"

/-- `tag.name in ['p', 'ul', 'ol']`. -/
def isContentTag (n : Node) : Bool :=
  n.tag = "p" || n.tag = "ul" || n.tag = "ol"

/-- The predicate of `soup.find(lambda tag: tag.name in ['h2','h3','h4'] and
section_title.lower() in tag.text.lower())`. -/
def matchesTitle (section_title : String) (n : Node) : Bool :=
  isHeading n && containsSeq (pyLower section_title).toList (pyLower n.text).toList

/-- The sibling walk of `_extract_text_from_section`: starting right after the
matched header, collect the nonempty texts of `p`/`ul`/`ol` siblings and stop
at the first `h2`/`h3`/`h4` sibling (or at the end of the siblings). -/
def collectContent : List Node → List String
  | [] => []
  | n :: rest =>
    if isHeading n then []
    else if isContentTag n then
      if n.text = "" then collectContent rest else n.text :: collectContent rest
    else collectContent rest

/-- `GeneReviewsExtractor._extract_text_from_section`: find the first heading
(level 2-4) whose text contains the title case-insensitively, walk its
following siblings, and join the collected blocks with a blank line. -/
def extract_text_from_section (doc : List Node) (section_title : String) : String :=
  match doc.dropWhile (fun n => !matchesTitle section_title n) with
  | [] => ""
  | _ :: siblings => String.intercalate "\n\n" (collectContent siblings)

/-! ### Lemmas about the section extractor -/

theorem dropWhile_append_of_all {α : Type} (p : α → Bool) (l r : List α)
    (h : ∀ a ∈ l, p a = true) : (l ++ r).dropWhile p = r.dropWhile p := by
  induction l with
  | nil => rfl
  | cons a l ih =>
    simp only [List.cons_append, List.dropWhile_cons]
    rw [h a (List.mem_cons_self a l)]
    simp only [if_true]
    exact ih fun b hb => h b (List.mem_cons_of_mem a hb)

theorem collectContent_append_stop (mid : List Node) (stopN : Node) (post : List Node)
    (hmid : ∀ n ∈ mid, isHeading n = false) (hstop : isHeading stopN = true) :
    collectContent (mid ++ stopN :: post)
      = mid.filterMap (fun n =>
          if isContentTag n then (if n.text = "" then none else some n.text) else none) := by
  induction mid with
  | nil => simp [collectContent, hstop]
  | cons n mid ih =>
    have hn : isHeading n = false := hmid n (List.mem_cons_self n mid)
    have ih' := ih fun b hb => hmid b (List.mem_cons_of_mem n hb)
    by_cases hc : isContentTag n = true
    · by_cases ht : n.text = ""
      · simp [collectContent, hn, hc, ht, ih']
      · simp [collectContent, hn, hc, ht, ih']
    · simp at hc
      simp [collectContent, hn, hc, ih']

/-- C1: a document whose siblings are `pre ++ [h] ++ mid ++ [stopN] ++ post`,
where no node of `pre` matches, `h` is a level-2 heading containing the target
label, `mid` holds no heading, and `stopN` is the next heading (level 2-4):
extraction returns the nonempty texts of the paragraph and list nodes of
`mid`, joined with a double newline; content after `stopN` is never read. -/
theorem extract_section_after_h2 (section_title : String) (pre : List Node) (h : Node)
    (mid : List Node) (stopN : Node) (post : List Node)
    (hpre : ∀ n ∈ pre, matchesTitle section_title n = false)
    (hh : h.tag = "h2")
    (hmatch : containsSeq (pyLower section_title).toList (pyLower h.text).toList = true)
    (hmid : ∀ n ∈ mid, isHeading n = false)
    (hstop : isHeading stopN = true) :
    extract_text_from_section (pre ++ h :: (mid ++ stopN :: post)) section_title
      = String.intercalate "\n\n"
          (mid.filterMap (fun n =>
            if isContentTag n then (if n.text = "" then none else some n.text) else none)) := by
  have hmatchh : matchesTitle section_title h = true := by
    unfold matchesTitle
    rw [hmatch]
    simp [isHeading, hh]
  unfold extract_text_from_section
  rw [dropWhile_append_of_all _ pre _ (fun n hn => by simp [hpre n hn])]
  rw [List.dropWhile_cons]
  simp only [hmatchh, Bool.not_true, Bool.false_eq_true, if_false]
  rw [collectContent_append_stop mid stopN post hmid hstop]

/-- Witness for C1 at the spec's concrete document: H2 "Clinical
Characteristics", paragraph "A", list "B", then H2 "Genetic Counseling"
followed by paragraph "C"; the result is exactly "A\n\nB" and does not
contain "C". -/
theorem extract_section_after_h2_witness :
    extract_text_from_section
      [⟨"h2", "Clinical Characteristics"⟩, ⟨"p", "A"⟩, ⟨"ul", "B"⟩,
       ⟨"h2", "Genetic Counseling"⟩, ⟨"p", "C"⟩] "Clinical Characteristics"
      = "A\n\nB"
    ∧ containsSeq "C".toList ("A\n\nB").toList = false := by
  have h := extract_section_after_h2 "Clinical Characteristics" []
    ⟨"h2", "Clinical Characteristics"⟩ [⟨"p", "A"⟩, ⟨"ul", "B"⟩]
    ⟨"h2", "Genetic Counseling"⟩ [⟨"p", "C"⟩]
    (by intro n hn; simp at hn) rfl (by decide)
    (by intro n hn; fin_cases hn <;> decide) (by decide)
  exact ⟨h.trans rfl, by decide⟩

/-! ### Cache Store (`_get_cached_data` / `_save_to_cache`) -/

/-- The content of one cache file `<key>.json`: either the JSON serialization
of a record (`json.load` succeeds and returns it) or corrupt text
(`json.load` raises `JSONDecodeError`). -/
inductive FileContent where
  | valid (r : Dict)
  | corrupt (s : String)
deriving DecidableEq, Repr

/-- The extractor's cache configuration and the files under `cache_dir`.
`hasCacheDir` is Python's truthiness of `self.cache_dir`; overwriting a key
prepends, and `lookupA` reads the most recent write, mirroring file
replacement. -/
structure CacheState where
  hasCacheDir : Bool
  files : List (String × FileContent)
deriving DecidableEq, Repr

/-- `GeneReviewsExtractor._get_cached_data`: `None` without a cache dir, the
parsed record if the file exists and parses, `None` on `JSONDecodeError`, and
`None` if the file does not exist. -/
def get_cached_data (st : CacheState) (cache_key : String) : Option Dict :=
  if !st.hasCacheDir then none
  else
    match lookupA st.files cache_key with
    | some (.valid r) => some r
    | some (.corrupt _) => none
    | none => none

/-- `GeneReviewsExtractor._save_to_cache`: a no-op without a cache dir,
otherwise write `json.dump(data)` to `<cache_key>.json`. -/
def save_to_cache (st : CacheState) (cache_key : String) (data : Dict) : CacheState :=
  if !st.hasCacheDir then st
  else { st with files := (cache_key, .valid data) :: st.files }

/-- C7: with a cache directory configured, `put` then `get` on the same key
returns the record unchanged, and `get` on a key that was never put (no
backing file) returns `none`. -/
theorem cache_roundtrip (st : CacheState) (key : String) (r : Dict)
    (hdir : st.hasCacheDir = true) :
    get_cached_data (save_to_cache st key r) key = some r
    ∧ ∀ k, lookupA st.files k = none → get_cached_data st k = none := by
  constructor
  · simp [get_cached_data, save_to_cache, hdir, lookupA]
  · intro k hk
    simp [get_cached_data, hdir, hk]

/-- Witness for C7 at a concrete state, key and record. -/
theorem cache_roundtrip_witness :
    get_cached_data (save_to_cache ⟨true, []⟩ "gene_BRCA1" [("x", "1")]) "gene_BRCA1"
      = some [("x", "1")]
    ∧ get_cached_data (⟨true, []⟩ : CacheState) "gene_TP53" = none := by
  have h := cache_roundtrip ⟨true, []⟩ "gene_BRCA1" [("x", "1")] rfl
  exact ⟨h.1, h.2 "gene_TP53" rfl⟩

/-- C8: if the backing file for a key exists but holds corrupt content,
`get_cached_data` returns `none` (the function is total, so no exception is
raised). -/
theorem cache_corrupt_is_miss (st : CacheState) (key : String) (s : String)
    (hfile : lookupA st.files key = some (.corrupt s)) :
    get_cached_data st key = none := by
  by_cases hdir : st.hasCacheDir = true
  · simp [get_cached_data, hdir, hfile]
  · simp at hdir
    simp [get_cached_data, hdir]

/-- Witness for C8: a cache holding corrupt text under the key. -/
theorem cache_corrupt_is_miss_witness :
    get_cached_data ⟨true, [("genereview_NBK1", .corrupt "not json")]⟩ "genereview_NBK1"
      = none :=
  cache_corrupt_is_miss ⟨true, [("genereview_NBK1", .corrupt "not json")]⟩
    "genereview_NBK1" "not json" rfl

/-! ### Document Fetcher (`get_gene_info` / `fetch_genereview_content`)

The network is an oracle. The functions additionally return the list of
network requests they performed (one entry per `self.session.get` call), so
that "performs the fetch" and "does not retry" are visible in the result. -/

/-- `GeneReviewsExtractor.get_gene_info`. `fetchGene g` is the outcome of
`session.get(f"{base}/gene/{g}.json")`: `some data` for a status-200 response
with JSON body `data`, `none` for a non-200 status or a raised
`RequestException` (both return `None` in the source). -/
def get_gene_info (st : CacheState) (fetchGene : String → Option Dict)
    (gene : String) : Option Dict × CacheState × List String :=
  let cache_key := "gene_" ++ gene
  let cached_data := get_cached_data st cache_key
  if pyOptTruthy cached_data then (cached_data, st, [])
  else
    match fetchGene gene with
    | some data => (some data, save_to_cache st cache_key data, [gene])
    | none => (none, st, [gene])

/-- The outcome of `session.get(f"{base}/{nbk_id}/")` followed by
`raise_for_status()` and HTML parsing: `ok` carries the parsed `<title>` text
(if a title element exists) and the sibling block list the section extractor
walks; `err` is a raised `RequestException` (transport failure or non-success
status). -/
inductive NetResult where
  | ok (title : Option String) (doc : List Node)
  | err (msg : String)

/-- The `sections` dictionary `fetch_genereview_content` assembles: the
disease name is the title text before the first " - " (or "Unknown Disease"
without a title), plus the three extracted sections. -/
def sectionsOf (title : Option String) (doc : List Node) : Dict :=
  let disease_name :=
    match title with
    | some t => pySplitFirst " - " t
    | none => "Unknown Disease"
  [("disease_name", disease_name),
   ("clinical_characteristics", extract_text_from_section doc "Clinical Characteristics"),
   ("evaluation_of_relatives", extract_text_from_section doc "Evaluation of Relatives at Risk"),
   ("genetic_counseling", extract_text_from_section doc "Genetic Counseling")]

/-- `GeneReviewsExtractor.fetch_genereview_content`: serve a truthy cached
record; otherwise perform the network fetch, and on success parse, assemble
the sections, save them to the cache and return them; on a
`RequestException` log and return `None`. -/
def fetch_genereview_content (st : CacheState) (net : String → NetResult)
    (nbk_id : String) : Option Dict × CacheState × List String :=
  let cache_key := "genereview_" ++ nbk_id
  let cached_data := get_cached_data st cache_key
  if pyOptTruthy cached_data then (cached_data, st, [])
  else
    match net nbk_id with
    | .ok title doc =>
      let sections := sectionsOf title doc
      (some sections, save_to_cache st cache_key sections, [nbk_id])
    | .err _ => (none, st, [nbk_id])

/-- C3: on a cache miss, if the network fetch fails (transport error or
non-success status), `fetch_genereview_content` returns the failure signal
`none` to its caller, leaves the cache unchanged, and performs exactly one
network request (no retry). -/
theorem fetch_failure_propagates (st : CacheState) (net : String → NetResult)
    (nbk_id : String) (e : String)
    (hmiss : get_cached_data st ("genereview_" ++ nbk_id) = none)
    (herr : net nbk_id = .err e) :
    fetch_genereview_content st net nbk_id = (none, st, [nbk_id]) := by
  simp only [fetch_genereview_content]
  rw [hmiss, herr]
  rfl

/-- Witness for C3: empty cache, failing network. -/
theorem fetch_failure_propagates_witness :
    fetch_genereview_content ⟨true, []⟩ (fun _ => .err "503 Service Unavailable") "NBK1"
      = (none, ⟨true, []⟩, ["NBK1"]) :=
  fetch_failure_propagates ⟨true, []⟩ (fun _ => .err "503 Service Unavailable")
    "NBK1" "503 Service Unavailable" rfl rfl

/-- C9: a cached record that is the empty dictionary is falsy in Python, so
both `get_gene_info` and `fetch_genereview_content` skip the `if cached_data:`
early return and perform the network fetch, even though `_get_cached_data`
did return the record; `get_gene_info` then returns the fetch outcome, not
the cached record, and `fetch_genereview_content` never returns the cached
empty record. -/
theorem falsy_cache_record_refetched (st : CacheState) (fetchGene : String → Option Dict)
    (net : String → NetResult) (gene nbk_id : String)
    (hdir : st.hasCacheDir = true)
    (hg : lookupA st.files ("gene_" ++ gene) = some (.valid []))
    (hn : lookupA st.files ("genereview_" ++ nbk_id) = some (.valid [])) :
    get_cached_data st ("gene_" ++ gene) = some []
    ∧ (get_gene_info st fetchGene gene).2.2 = [gene]
    ∧ (get_gene_info st fetchGene gene).1 = fetchGene gene
    ∧ get_cached_data st ("genereview_" ++ nbk_id) = some []
    ∧ (fetch_genereview_content st net nbk_id).2.2 = [nbk_id]
    ∧ (fetch_genereview_content st net nbk_id).1 ≠ some [] := by
  have hgc : get_cached_data st ("gene_" ++ gene) = some [] := by
    simp [get_cached_data, hdir, hg]
  have hnc : get_cached_data st ("genereview_" ++ nbk_id) = some [] := by
    simp [get_cached_data, hdir, hn]
  refine ⟨hgc, ?_, ?_, hnc, ?_, ?_⟩
  · simp only [get_gene_info]
    rw [hgc]
    cases fetchGene gene <;> rfl
  · simp only [get_gene_info]
    rw [hgc]
    cases fetchGene gene <;> rfl
  · simp only [fetch_genereview_content]
    rw [hnc]
    cases net nbk_id <;> rfl
  · simp only [fetch_genereview_content]
    rw [hnc]
    cases net nbk_id with
    | ok title doc => simp [pyOptTruthy, pyDictTruthy, sectionsOf]
    | err msg => simp [pyOptTruthy, pyDictTruthy]

/-- Witness for C9: both keys cached as the empty dictionary; the fetches are
performed and their outcomes returned. -/
theorem falsy_cache_record_refetched_witness :
    get_cached_data ⟨true, [("gene_BRCA1", .valid []), ("genereview_NBK2", .valid [])]⟩
        ("gene_" ++ "BRCA1") = some []
    ∧ (get_gene_info ⟨true, [("gene_BRCA1", .valid []), ("genereview_NBK2", .valid [])]⟩
        (fun _ => some [("summary", "s")]) "BRCA1").2.2 = ["BRCA1"]
    ∧ (get_gene_info ⟨true, [("gene_BRCA1", .valid []), ("genereview_NBK2", .valid [])]⟩
        (fun _ => some [("summary", "s")]) "BRCA1").1 = some [("summary", "s")]
    ∧ (fetch_genereview_content ⟨true, [("gene_BRCA1", .valid []), ("genereview_NBK2", .valid [])]⟩
        (fun _ => .err "down") "NBK2").2.2 = ["NBK2"] := by
  have h := falsy_cache_record_refetched
    ⟨true, [("gene_BRCA1", .valid []), ("genereview_NBK2", .valid [])]⟩
    (fun _ => some [("summary", "s")]) (fun _ => .err "down") "BRCA1" "NBK2"
    rfl (by decide) (by decide)
  exact ⟨h.1, h.2.1, h.2.2.1, h.2.2.2.2.1⟩

/-! ### Gene Aggregator (`get_genereview_sections`)

The per-identifier fetch is abstracted as `fetchStep : String → Except String
(Option Dict)`: `.ok (some d)` is `fetch_genereview_content` returning a
record, `.ok none` is its logged-and-swallowed failure path returning `None`,
and `.error e` is an unexpected exception escaping it (for example an OS
error while writing the cache), carrying `str(e)`. -/

/-- The `disease_entry` dictionary the aggregator builds from a `sections`
record (`sections.get(...)` with the defaults of the source). -/
structure DiseaseEntry where
  nbk_id : String
  disease_name : String
  clinical_characteristics : Option String
  evaluation_of_relatives : Option String
  genetic_counseling : Option String
deriving DecidableEq, Repr

/-- The per-gene `result` dictionary of `get_genereview_sections`. -/
structure GeneResult where
  gene : String
  diseases : List DiseaseEntry
  error : Option String
deriving DecidableEq, Repr

/-- Build one `disease_entry` from the fetched `sections` record. -/
def mkDiseaseEntry (nbk_id : String) (sections : Dict) : DiseaseEntry :=
  { nbk_id := nbk_id
    disease_name := (lookupA sections "disease_name").getD "Unknown Disease"
    clinical_characteristics := lookupA sections "clinical_characteristics"
    evaluation_of_relatives := lookupA sections "evaluation_of_relatives"
    genetic_counseling := lookupA sections "genetic_counseling" }

/-- The `for nbk_id in nbk_ids:` loop of `get_genereview_sections`, threading
the accumulated `result["diseases"]`; a raised exception aborts the loop
carrying its message and the diseases accumulated so far. -/
def runFetchLoop (fetchStep : String → Except String (Option Dict)) :
    List String → List DiseaseEntry →
    Except (String × List DiseaseEntry) (List DiseaseEntry)
  | [], acc => .ok acc
  | nbk_id :: rest, acc =>
    match fetchStep nbk_id with
    | .error e => .error (e, acc)
    | .ok sections =>
      if pyOptTruthy sections then
        runFetchLoop fetchStep rest (acc ++ [mkDiseaseEntry nbk_id (sections.getD [])])
      else runFetchLoop fetchStep rest acc

/-- `GeneReviewsExtractor.get_genereview_sections`: uppercase the gene, look
up its NBK ids (`.get(gene, [])`), report "No GeneReviews entries" when there
are none, otherwise fetch each id, skipping falsy outcomes; report "Failed to
fetch any GeneReviews content" when nothing was collected; any exception is
caught and stored as `error = str(e)` on the partially built result. -/
def get_genereview_sections (gene_to_nbk_map : List (String × List String))
    (fetchStep : String → Except String (Option Dict)) (gene : String) : GeneResult :=
  let g := pyUpper gene
  let nbk_ids := (lookupA gene_to_nbk_map g).getD []
  if nbk_ids.isEmpty then
    { gene := g, diseases := [],
      error := some ("No GeneReviews entries found for gene " ++ g) }
  else
    match runFetchLoop fetchStep nbk_ids [] with
    | .ok ds =>
      if ds.isEmpty then
        { gene := g, diseases := ds,
          error := some ("Failed to fetch any GeneReviews content for " ++ g) }
      else { gene := g, diseases := ds, error := none }
    | .error (e, ds) => { gene := g, diseases := ds, error := some e }

/-- The entries the loop collects for a non-raising fetch outcome `f`: one
entry per identifier whose fetch returned a truthy record, in mapping
order. -/
def successEntries (f : String → Option Dict) (ids : List String) : List DiseaseEntry :=
  ids.filterMap fun nbk_id =>
    match f nbk_id with
    | some s => if pyDictTruthy s then some (mkDiseaseEntry nbk_id s) else none
    | none => none

theorem runFetchLoop_ok (f : String → Option Dict) (ids : List String) :
    ∀ acc, runFetchLoop (fun i => Except.ok (f i)) ids acc
      = Except.ok (acc ++ successEntries f ids) := by
  induction ids with
  | nil => intro acc; simp [runFetchLoop, successEntries]
  | cons nbk_id rest ih =>
    intro acc
    cases hf : f nbk_id with
    | none =>
      simp [runFetchLoop, successEntries, hf, pyOptTruthy, List.filterMap_cons]
      have := ih acc
      simpa [successEntries] using this
    | some s =>
      by_cases hs : pyDictTruthy s = true
      · simp only [runFetchLoop, hf, pyOptTruthy, hs, if_true, Option.getD_some]
        rw [ih (acc ++ [mkDiseaseEntry nbk_id s])]
        simp [successEntries, List.filterMap_cons, hf, hs]
      · simp only [Bool.not_eq_true] at hs
        simp only [runFetchLoop, hf, pyOptTruthy, hs, Bool.false_eq_true, if_false]
        rw [ih acc]
        simp [successEntries, List.filterMap_cons, hf, hs]

/-- C2: for a gene mapped to identifiers among which at least one fetch fails
and at least one succeeds, the aggregator (with a non-raising fetch) visits
the identifiers in mapping order, silently skips the failures, and returns
exactly the successful entries with `error = None`. -/
theorem aggregator_partial_success (m : List (String × List String))
    (f : String → Option Dict) (gene : String) (ids : List String)
    (hlk : lookupA m (pyUpper gene) = some ids)
    (_hfail : ∃ i ∈ ids, pyOptTruthy (f i) = false)
    (hsucc : ∃ j ∈ ids, pyOptTruthy (f j) = true) :
    get_genereview_sections m (fun i => Except.ok (f i)) gene
      = { gene := pyUpper gene, diseases := successEntries f ids, error := none } := by
  obtain ⟨j, hj, hjt⟩ := hsucc
  have hent : ∃ s, f j = some s ∧ pyDictTruthy s = true := by
    cases hf : f j with
    | none => rw [hf] at hjt; simp [pyOptTruthy] at hjt
    | some s => rw [hf] at hjt; exact ⟨s, rfl, hjt⟩
  obtain ⟨s, hfs, hst⟩ := hent
  have hmem : mkDiseaseEntry j s ∈ successEntries f ids := by
    apply List.mem_filterMap.mpr
    exact ⟨j, hj, by rw [hfs]; simp [hst]⟩
  have hne : successEntries f ids ≠ [] := List.ne_nil_of_mem hmem
  cases hids : ids with
  | nil => rw [hids] at hj; cases hj
  | cons a as =>
    simp only [get_genereview_sections]
    rw [hlk, hids]
    simp only [Option.getD_some, List.isEmpty_cons, Bool.false_eq_true, if_false]
    rw [runFetchLoop_ok f (a :: as) []]
    rw [← hids]
    simp only [List.nil_append]
    rw [if_neg (by simpa [List.isEmpty_iff] using hne)]

/-- The remote outcomes of the C2 witness: NBK1 fails, NBK2 succeeds. -/
def fetchOutcomeW : String → Option Dict := fun nbk_id =>
  if nbk_id = "NBK2" then some [("disease_name", "Disease X")] else none

/-- Witness for C2: gene mapped to `[NBK1, NBK2]`, NBK1 failing, NBK2
succeeding, yields exactly the NBK2 entry and no error. -/
theorem aggregator_partial_success_witness :
    get_genereview_sections [("C2G", ["NBK1", "NBK2"])]
        (fun i => Except.ok (fetchOutcomeW i)) "c2g"
      = { gene := "C2G",
          diseases := [mkDiseaseEntry "NBK2" [("disease_name", "Disease X")]],
          error := none } := by
  have h := aggregator_partial_success [("C2G", ["NBK1", "NBK2"])] fetchOutcomeW
    "c2g" ["NBK1", "NBK2"] (by decide)
    ⟨"NBK1", by decide, by decide⟩ ⟨"NBK2", by decide, by decide⟩
  exact h.trans (by decide)

/-- C5: whatever exception the fetch step raises at whatever point of the
loop, the aggregator catches it at the gene boundary and returns a
`GeneResult` carrying `error = str(e)` and the diseases collected so far; no
exception escapes (the function is total into `GeneResult`). -/
theorem aggregator_catches_exception (m : List (String × List String))
    (fetchStep : String → Except String (Option Dict)) (gene : String)
    (ids : List String) (e : String) (ds : List DiseaseEntry)
    (hlk : lookupA m (pyUpper gene) = some ids)
    (hrun : runFetchLoop fetchStep ids [] = .error (e, ds)) :
    get_genereview_sections m fetchStep gene
      = { gene := pyUpper gene, diseases := ds, error := some e } := by
  cases hids : ids with
  | nil => rw [hids] at hrun; simp [runFetchLoop] at hrun
  | cons a as =>
    rw [hids] at hrun
    simp only [get_genereview_sections]
    rw [hlk, hids]
    simp only [Option.getD_some, List.isEmpty_cons, Bool.false_eq_true, if_false]
    rw [hrun]

/-- A fetch step that always raises, for the C5 witness. -/
def raisingStep : String → Except String (Option Dict) := fun _ => .error "disk full"

/-- Witness for C5: the raised exception "disk full" is returned as the
result's error field. -/
theorem aggregator_catches_exception_witness :
    get_genereview_sections [("C5G", ["NBK9"])] raisingStep "C5G"
      = { gene := "C5G", diseases := [], error := some "disk full" } := by
  have h := aggregator_catches_exception [("C5G", ["NBK9"])] raisingStep "C5G"
    ["NBK9"] "disk full" [] (by decide) rfl
  exact h.trans (by decide)

/-! ### Identifier Mapper (`_load_nbk_mapping`) -/

/-- The effect of `if gene not in map: map[gene] = []` followed by
`map[gene].append(nbk_id)` on an insertion-ordered dictionary: append to the
existing entry, or add a fresh key at the end. -/
def addToKey : List (String × List String) → String → String → List (String × List String)
  | [], gene, nbk_id => [(gene, [nbk_id])]
  | (k, vs) :: rest, gene, nbk_id =>
    if k = gene then (k, vs ++ [nbk_id]) :: rest
    else (k, vs) :: addToKey rest gene nbk_id

/-- The effect of `map[key] = value`: overwrite in place or append a fresh
key. -/
def setKey : List (String × String) → String → String → List (String × String)
  | [], k, v => [(k, v)]
  | (k0, v0) :: rest, k, v =>
    if k0 = k then (k0, v) :: rest else (k0, v0) :: setKey rest k v

/-- The two mapping dictionaries: `gene_to_nbk_map` and `nbk_to_gene_map`. -/
abbrev GeneMaps := List (String × List String) × List (String × String)

/-- The body of the `for gene in genes:` loop: normalize the token and
register the line's NBK id in both maps. -/
def registerGene (maps : GeneMaps) (nbk_id tok : String) : GeneMaps :=
  let gene := pyUpper (pyStrip tok)
  (addToKey maps.1 gene nbk_id, setKey maps.2 nbk_id gene)

/-- Processing of one line of the mapping file in `_load_nbk_mapping`: skip
blank lines, split on tabs, require at least two fields, and register the
first field under every semicolon-separated gene of the third field (when
present). -/
def process_line (maps : GeneMaps) (line : String) : GeneMaps :=
  if pyStrip line = "" then maps
  else
    let parts := pySplit (Char.ofNat 9) (pyStrip line)
    if 2 ≤ parts.length then
      let nbk_id := parts.headD ""
      let genes := if 2 < parts.length then pySplit (Char.ofNat 59) (parts.getD 2 "") else []
      genes.foldl (fun mm tok => registerGene mm nbk_id tok) maps
    else maps

/-- `GeneReviewsExtractor._load_nbk_mapping` applied to the fetched mapping
text: fold `process_line` over the lines of the file. -/
def load_nbk_mapping (text : String) : GeneMaps :=
  (pySplit (Char.ofNat 10) text).foldl process_line ([], [])

/-- Specification-side view of one line: the NBK ids this line registers
under gene key `g` (one per token normalizing to `g`). -/
def lineGeneNbks (g : String) (line : String) : List String :=
  if pyStrip line = "" then []
  else
    let parts := pySplit (Char.ofNat 9) (pyStrip line)
    if 2 ≤ parts.length then
      (if 2 < parts.length then pySplit (Char.ofNat 59) (parts.getD 2 "") else []).filterMap
        (fun tok => if pyUpper (pyStrip tok) = g then some (parts.headD "") else none)
    else []

/-- All NBK ids registered under `g` by a list of lines, in encounter
order. -/
def linesOcc (g : String) : List String → List String
  | [] => []
  | line :: rest => lineGeneNbks g line ++ linesOcc g rest

/-- How a value list grows: an existing entry is extended at its end; a key
is created only when something is appended. -/
def extendLookup (o : Option (List String)) (l : List String) : Option (List String) :=
  match o with
  | some vs => some (vs ++ l)
  | none => if l = [] then none else some l

theorem lookupA_addToKey_self (m : List (String × List String)) (g nbk : String) :
    lookupA (addToKey m g nbk) g = some ((lookupA m g).getD [] ++ [nbk]) := by
  induction m with
  | nil => simp [addToKey, lookupA]
  | cons kv rest ih =>
    obtain ⟨k, vs⟩ := kv
    by_cases hk : k = g
    · subst hk
      simp [addToKey, lookupA]
    · simp [addToKey, lookupA, hk, ih]

theorem lookupA_addToKey_other (m : List (String × List String)) (g g2 nbk : String)
    (h : g2 ≠ g) : lookupA (addToKey m g nbk) g2 = lookupA m g2 := by
  have hne : ¬ g = g2 := fun he => h he.symm
  induction m with
  | nil => simp [addToKey, lookupA, hne]
  | cons kv rest ih =>
    obtain ⟨k, vs⟩ := kv
    by_cases hk : k = g
    · simp [addToKey, lookupA, hk, hne]
    · simp [addToKey, lookupA, hk, ih]

theorem extendLookup_nil (o : Option (List String)) : extendLookup o [] = o := by
  cases o <;> simp [extendLookup]

theorem extendLookup_append (o : Option (List String)) (a b : List String) :
    extendLookup (extendLookup o a) b = extendLookup o (a ++ b) := by
  cases o with
  | some vs => simp [extendLookup]
  | none =>
    cases ha : a with
    | nil => simp [extendLookup]
    | cons x xs => simp [extendLookup]

theorem foldl_registerGene_fst (nbk : String) (toks : List String) :
    ∀ maps : GeneMaps,
      (toks.foldl (fun mm tok => registerGene mm nbk tok) maps).1
        = toks.foldl (fun m1 tok => addToKey m1 (pyUpper (pyStrip tok)) nbk) maps.1 := by
  induction toks with
  | nil => intro maps; rfl
  | cons tok rest ih =>
    intro maps
    simp only [List.foldl_cons]
    rw [ih (registerGene maps nbk tok)]
    rfl

theorem foldl_addToKey_lookup (nbk g : String) (toks : List String) :
    ∀ m1 : List (String × List String),
      lookupA (toks.foldl (fun acc tok => addToKey acc (pyUpper (pyStrip tok)) nbk) m1) g
        = extendLookup (lookupA m1 g)
            (toks.filterMap fun tok =>
              if pyUpper (pyStrip tok) = g then some nbk else none) := by
  induction toks with
  | nil => intro m1; simp [extendLookup_nil]
  | cons tok rest ih =>
    intro m1
    simp only [List.foldl_cons, List.filterMap_cons]
    by_cases hg : pyUpper (pyStrip tok) = g
    · rw [if_pos hg, ih, hg, lookupA_addToKey_self]
      cases hm : lookupA m1 g with
      | some vs => simp [extendLookup, hm]
      | none => simp [extendLookup, hm]
    · rw [if_neg hg, ih, lookupA_addToKey_other _ _ _ _ (fun he => hg he.symm)]

theorem process_line_lookup (maps : GeneMaps) (line g : String) :
    lookupA (process_line maps line).1 g
      = extendLookup (lookupA maps.1 g) (lineGeneNbks g line) := by
  by_cases hb : pyStrip line = ""
  · simp [process_line, lineGeneNbks, hb, extendLookup_nil]
  · by_cases hp : 2 ≤ (pySplit (Char.ofNat 9) (pyStrip line)).length
    · simp only [process_line, lineGeneNbks, if_neg hb, if_pos hp]
      rw [foldl_registerGene_fst, foldl_addToKey_lookup]
    · simp [process_line, lineGeneNbks, hb, hp, extendLookup_nil]

theorem foldl_process_line_lookup (g : String) (lines : List String) :
    ∀ maps : GeneMaps,
      lookupA (lines.foldl process_line maps).1 g
        = extendLookup (lookupA maps.1 g) (linesOcc g lines) := by
  induction lines with
  | nil => intro maps; simp [linesOcc, extendLookup_nil]
  | cons line rest ih =>
    intro maps
    simp only [List.foldl_cons, linesOcc]
    rw [ih (process_line maps line), process_line_lookup, extendLookup_append]

theorem load_nbk_mapping_lookup (text g : String) :
    lookupA (load_nbk_mapping text).1 g
      = extendLookup none (linesOcc g (pySplit (Char.ofNat 10) text)) := by
  unfold load_nbk_mapping
  rw [foldl_process_line_lookup]
  rfl

theorem mem_linesOcc (g nbk : String) (lines : List String) (line : String)
    (hline : line ∈ lines) (hnbk : nbk ∈ lineGeneNbks g line) :
    nbk ∈ linesOcc g lines := by
  induction lines with
  | nil => cases hline
  | cons l rest ih =>
    rcases List.mem_cons.mp hline with he | hm
    · subst he
      exact List.mem_append_left _ hnbk
    · exact List.mem_append_right _ (ih hm)

theorem token_registered (text line tok : String)
    (hline : line ∈ pySplit (Char.ofNat 10) text)
    (hlen : 3 ≤ (pySplit (Char.ofNat 9) (pyStrip line)).length)
    (htok : tok ∈ pySplit (Char.ofNat 59) ((pySplit (Char.ofNat 9) (pyStrip line)).getD 2 "")) :
    ∃ vs, lookupA (load_nbk_mapping text).1 (pyUpper (pyStrip tok)) = some vs
      ∧ (pySplit (Char.ofNat 9) (pyStrip line)).headD "" ∈ vs := by
  have hb : ¬ pyStrip line = "" := by
    intro h0
    rw [h0] at hlen
    have he : pySplit (Char.ofNat 9) "" = [""] := rfl
    rw [he] at hlen
    simp at hlen
  have hnbk : (pySplit (Char.ofNat 9) (pyStrip line)).headD ""
      ∈ lineGeneNbks (pyUpper (pyStrip tok)) line := by
    unfold lineGeneNbks
    rw [if_neg hb, if_pos (by omega), if_pos (by omega)]
    exact List.mem_filterMap.mpr ⟨tok, htok, by rw [if_pos rfl]⟩
  have hocc : (pySplit (Char.ofNat 9) (pyStrip line)).headD ""
      ∈ linesOcc (pyUpper (pyStrip tok)) (pySplit (Char.ofNat 10) text) :=
    mem_linesOcc _ _ _ _ hline hnbk
  have hne : linesOcc (pyUpper (pyStrip tok)) (pySplit (Char.ofNat 10) text) ≠ [] :=
    List.ne_nil_of_mem hocc
  refine ⟨linesOcc (pyUpper (pyStrip tok)) (pySplit (Char.ofNat 10) text), ?_, hocc⟩
  rw [load_nbk_mapping_lookup]
  simp [extendLookup, hne]

/-- C6: (1) every gene token of a well-formed mapping line (at least two
tab-delimited fields, third semicolon-delimited gene field present), after
trimming and uppercasing, is a key of `gene_to_nbk_map` whose value list
contains that line's NBK id; (2) for every gene key the whole value list is
the line-ordered (first-encounter-ordered) list of registered NBK ids; (3) a
line with fewer than two tab-delimited fields leaves both maps untouched. -/
theorem mapping_registration (text : String) :
    (∀ line ∈ pySplit (Char.ofNat 10) text,
      3 ≤ (pySplit (Char.ofNat 9) (pyStrip line)).length →
      ∀ tok ∈ pySplit (Char.ofNat 59) ((pySplit (Char.ofNat 9) (pyStrip line)).getD 2 ""),
        ∃ vs, lookupA (load_nbk_mapping text).1 (pyUpper (pyStrip tok)) = some vs
          ∧ (pySplit (Char.ofNat 9) (pyStrip line)).headD "" ∈ vs)
    ∧ (∀ g, lookupA (load_nbk_mapping text).1 g
        = extendLookup none (linesOcc g (pySplit (Char.ofNat 10) text)))
    ∧ (∀ maps line, (pySplit (Char.ofNat 9) (pyStrip line)).length < 2 →
        process_line maps line = maps) := by
  refine ⟨?_, ?_, ?_⟩
  · intro line hline hlen tok htok
    exact token_registered text line tok hline hlen htok
  · intro g
    exact load_nbk_mapping_lookup text g
  · intro maps line hlen
    by_cases hb : pyStrip line = ""
    · simp [process_line, hb]
    · have hp : ¬ 2 ≤ (pySplit (Char.ofNat 9) (pyStrip line)).length := by omega
      simp [process_line, hb, hp]

/-- Witness for C6 on a concrete mapping file of three lines: a well-formed
line registering two genes, a malformed single-field line, and a second
well-formed line for the same gene; `G6A` maps to `[NBK1, NBK2]` in
first-encounter order, and the malformed line mutates nothing. -/
theorem mapping_registration_witness :
    (∃ vs, lookupA (load_nbk_mapping "NBK1\tab\tG6A; g6b\nX\nNBK2\tcd\tG6A").1 "G6A"
        = some vs ∧ "NBK1" ∈ vs)
    ∧ lookupA (load_nbk_mapping "NBK1\tab\tG6A; g6b\nX\nNBK2\tcd\tG6A").1 "G6A"
        = some ["NBK1", "NBK2"]
    ∧ process_line ([], []) "justonefield" = ([], []) := by
  have h := mapping_registration "NBK1\tab\tG6A; g6b\nX\nNBK2\tcd\tG6A"
  refine ⟨?_, ?_, h.2.2 ([], []) "justonefield" (by decide)⟩
  · obtain ⟨vs, hvs, hm⟩ := h.1 "NBK1\tab\tG6A; g6b" (by decide) (by decide) "G6A" (by decide)
    have e1 : pyUpper (pyStrip "G6A") = "G6A" := by decide
    have e2 : (pySplit (Char.ofNat 9) (pyStrip "NBK1\tab\tG6A; g6b")).headD "" = "NBK1" := by
      decide
    rw [e1] at hvs
    rw [e2] at hm
    exact ⟨vs, hvs, hm⟩
  · rw [h.2.1 "G6A"]
    decide

/-- C10: a well-formed mapping line whose third field contains a token that
trims to the empty string (for example a trailing semicolon) registers the
line's NBK id under the empty-string gene key, so `""` can be a key of
`gene_to_nbk_map`. -/
theorem empty_token_registered (text line tok : String)
    (hline : line ∈ pySplit (Char.ofNat 10) text)
    (hlen : 3 ≤ (pySplit (Char.ofNat 9) (pyStrip line)).length)
    (htok : tok ∈ pySplit (Char.ofNat 59) ((pySplit (Char.ofNat 9) (pyStrip line)).getD 2 ""))
    (hempty : pyStrip tok = "") :
    ∃ vs, lookupA (load_nbk_mapping text).1 "" = some vs
      ∧ (pySplit (Char.ofNat 9) (pyStrip line)).headD "" ∈ vs := by
  have h := token_registered text line tok hline hlen htok
  have e : pyUpper (pyStrip tok) = "" := by rw [hempty]; rfl
  rw [e] at h
  exact h

/-- Witness for C10: the line `NBK1<TAB>ab<TAB>GENE1;` has a trailing
semicolon, so `""` becomes a gene key holding `NBK1`. -/
theorem empty_token_registered_witness :
    ∃ vs, lookupA (load_nbk_mapping "NBK1\tab\tGENE1;").1 "" = some vs
      ∧ "NBK1" ∈ vs := by
  obtain ⟨vs, hvs, hm⟩ := empty_token_registered "NBK1\tab\tGENE1;" "NBK1\tab\tGENE1;" ""
    (by decide) (by decide) (by decide) (by decide)
  have e : (pySplit (Char.ofNat 9) (pyStrip "NBK1\tab\tGENE1;")).headD "" = "NBK1" := by decide
  rw [e] at hm
  exact ⟨vs, hvs, hm⟩

/-! ### Batch Driver (`main`) -/

/-- `genes = list(dict.fromkeys(genes))`: remove duplicates by exact string
equality (`dict` keys compare with `==`, which is case-sensitive for
strings), keeping the first occurrence in order. -/
def dedupFromKeys (genes : List String) : List String :=
  genes.foldl (fun acc g => if g ∈ acc then acc else acc ++ [g]) []

/-- The `for gene in genes:` loop of `main`: one aggregator call and one
appended result per deduplicated gene, in order. -/
def mainResults (genes : List String) (agg : String → GeneResult) : List GeneResult :=
  (dedupFromKeys genes).map agg

/-- A concrete aggregator for the closed batch-driver statements. -/
def aggStub : String → GeneResult := fun g =>
  { gene := pyUpper g, diseases := [], error := none }

/-- Counterexample to C4: the dedup of `main` is case-sensitive, so
`["BRCA1", "brca1", "TP53"]` does not deduplicate to `["BRCA1", "TP53"]` and
3 results are produced, not 2. -/
theorem batch_dedup_case_counterexample :
    dedupFromKeys ["BRCA1", "brca1", "TP53"] ≠ ["BRCA1", "TP53"]
    ∧ (mainResults ["BRCA1", "brca1", "TP53"] aggStub).length ≠ 2 := by
  exact ⟨by decide, by decide⟩

/-- C4 (amended): the batch driver deduplicates the gene list by exact string
equality, keeping the first occurrence in order, and produces one result per
surviving gene; on `["BRCA1", "brca1", "TP53"]` all three genes survive and
exactly 3 results are produced. -/
theorem batch_dedup_exact (agg : String → GeneResult) :
    mainResults ["BRCA1", "brca1", "TP53"] agg
      = [agg "BRCA1", agg "brca1", agg "TP53"]
    ∧ (mainResults ["BRCA1", "brca1", "TP53"] agg).length = 3
    ∧ ∀ genes : List String,
        (mainResults genes agg).length = (dedupFromKeys genes).length := by
  refine ⟨rfl, rfl, ?_⟩
  intro genes
  simp [mainResults]

/-- Witness for the amended C4 at a concrete aggregator. -/
theorem batch_dedup_exact_witness :
    mainResults ["BRCA1", "brca1", "TP53"] aggStub
      = [aggStub "BRCA1", aggStub "brca1", aggStub "TP53"] :=
  (batch_dedup_exact aggStub).1

end GeneExtractor
